import Mathlib

/-!
# DeviceManager: device registry, status byte and mode flag

A shallow embedding of `src/DeviceManager.cpp`.

* The object's members and the EEPROM are the fields of `DM`; every member function is a
  function from the state before the call to the state after it.
* `_devices` is a map from index to `Device`.  Indices `0 .. MAX_DEVICES-1` are the array;
  an index at or past `MAX_DEVICES` stands for whatever memory follows the array, so a read
  there returns an unconstrained value.  `delDeviceAccesses` lists the subscripts that
  `delDevice` evaluates.
* The EEPROM is seen through three typed views keyed by byte address: single bytes
  (`EEPROM.read`/`EEPROM.write`), `Device` records and `MQTT` records (`EEPROM.put`/`get`
  copy a whole struct).  The views are independent as long as the status byte is at address
  0, records start at address 1 or later and `Device` slots are `sizeof(Device)` apart; all
  addresses the program computes have that shape.
* `sizeof(Device)`, the size of the `Device.name` buffer and `BTN_PRESS_TIME` come from
  `DeviceManager.h` and are parameters (`R`, `L`, `btn`).
* The `name` of a `Device` is the text held in its name buffer.  `strcpy` stores a name that
  fits whole and of a longer one leaves the first `L` characters in the record.
  `strcmp(_devices[i].name, name) == 0` is equality of that text with `name`, so a record
  cut off by `strcpy` never equals the longer name it was made from.
* `uint8_t` arithmetic is written with `% 256`, `unsigned long` with `% 2^32`.
-/

namespace DeviceManager

/-- Modelled from the spec: `MAX_DEVICES` is defined in `DeviceManager.h`; the spec gives the
capacity as 5, the value `begin` also hard-codes in its range check. -/
def MAX_DEVICES : Nat := 5

/-- Modelled from the spec: `DEVICE_COUNT_ADDR` is defined in `DeviceManager.h`; the spec
puts the status cell at byte 0 of the store. -/
def DEVICE_COUNT_ADDR : Nat := 0

/-- One controlled output (`struct Device`): pin, name and last commanded state. -/
structure Device where
  pin : Nat
  name : String
  state : Bool
  deriving DecidableEq, Repr, Inhabited

/-- The message-bus record (`struct MQTT`): host and port. -/
structure MQTT where
  host : String
  port : Nat
  deriving DecidableEq, Repr, Inhabited

/-- Pointwise update of a map keyed by natural numbers. -/
def upd {α : Type} (f : Nat → α) (a : Nat) (v : α) : Nat → α :=
  fun x => if x = a then v else f x

/-- The persistent store, as typed views keyed by byte address. -/
structure Eeprom where
  byte : Nat → Nat
  device : Nat → Device
  mqtt : Nat → MQTT

/-- The members of the `DeviceManager` object together with the EEPROM it drives. -/
structure DM where
  deviceCount : Nat
  devices : Nat → Device
  alexa : Bool
  mqtt : Bool
  config : Bool
  mqttHost : String
  mqttPort : Nat
  buttonTimer : Nat
  rom : Eeprom

/-- Conversion of a loop counter to `int8_t`. -/
def toInt8 (i : Nat) : Int :=
  if i % 256 < 128 then ((i % 256 : Nat) : Int) else ((i % 256 : Nat) : Int) - 256

/-- Source `readROM`: one byte from the store. -/
def readROM (s : DM) (addr : Nat) : Nat :=
  s.rom.byte addr % 256

/-- Source `writeROM`: `EEPROM.write` of one byte followed by `EEPROM.commit`. -/
def writeROM (s : DM) (addr : Nat) (data : Nat) : DM :=
  { s with rom := { s.rom with byte := upd s.rom.byte addr (data % 256) } }

/-- The call `EEPROM.put(addr, d)` followed by `EEPROM.commit()` for a `Device`. -/
def putDevice (s : DM) (addr : Nat) (d : Device) : DM :=
  { s with rom := { s.rom with device := upd s.rom.device addr d } }

/-- Count field of a status byte: `status & 0x0f`. -/
def statusCount (status : Nat) : Nat := status &&& 0x0f

/-- Assistant flag of a status byte: `(status >> 4) & 0x01`. -/
def statusAlexa (status : Nat) : Bool := (status >>> 4) &&& 0x01 != 0

/-- Bus flag of a status byte: `(status >> 5) & 0x01`. -/
def statusMqtt (status : Nat) : Bool := (status >>> 5) &&& 0x01 != 0

/-- The scanning loop shared by both `getDeviceIndex` overloads: `n` iterations remain, the
counter is `i`; the first index where `p` holds is returned as an `int8_t`, else `-1`. -/
def scanIndex (p : Nat → Bool) : Nat → Nat → Int
  | 0, _ => -1
  | n + 1, i => if p i then toInt8 i else scanIndex p n (i + 1)

/-- Source `getDeviceIndex(const char * name)`. -/
def getDeviceIndexName (s : DM) (name : String) : Int :=
  scanIndex (fun i => decide ((s.devices i).name = name)) s.deviceCount 0

/-- Source `getDeviceIndex(uint8_t pin)`. -/
def getDeviceIndexPin (s : DM) (pin : Nat) : Int :=
  scanIndex (fun i => decide ((s.devices i).pin = pin)) s.deviceCount 0

/-- Source `getMqttConfs`: the record stored after the device region. -/
def getMqttConfs (R : Nat) (s : DM) : MQTT :=
  s.rom.mqtt (MAX_DEVICES * R + 1)

/-- Source `saveMqttConfs`: writes host and port after the device region, then reads them back. -/
def saveMqttConfs (R : Nat) (s : DM) : DM :=
  let m : MQTT := { host := s.mqttHost, port := s.mqttPort }
  { s with rom := { s.rom with mqtt := upd s.rom.mqtt (MAX_DEVICES * R + 1) m } }

/-- The name left in `d.name` by `strcpy(d.name, name)` for a buffer of `L` bytes.  A name
of fewer than `L` characters fits with its terminator and is stored whole.  Of a longer
name the buffer keeps the first `L` characters, with no terminator inside it; the rest is
written past the buffer and is not part of the record that `_devices[..] = d` and
`EEPROM.put` copy. -/
def strcpy (L : Nat) (name : String) : String :=
  if name.length < L then name else String.mk (name.data.take L)

/-- Source `addDevice`: the result flag and the state after the call. -/
def addDevice (L R : Nat) (s : DM) (pin : Nat) (name : String) : Bool × DM :=
  if s.deviceCount < MAX_DEVICES ∧ getDeviceIndexName s name = -1
      ∧ getDeviceIndexPin s pin = -1 then
    let d : Device := { pin := pin, name := strcpy L name, state := false }
    let s1 := { s with devices := upd s.devices s.deviceCount d }
    let s2 := putDevice s1 (s1.deviceCount * R + 1) d
    let s3 := { s2 with deviceCount := (s2.deviceCount + 1) % 256 }
    (true, writeROM s3 DEVICE_COUNT_ADDR s3.deviceCount)
  else
    (false, s)

/-- One pass of the body of the shifting loop of `delDevice`, at counter `i`. -/
def shiftStep (R : Nat) (s : DM) (i : Nat) : DM :=
  let d := s.devices (i + 1)
  putDevice { s with devices := upd s.devices i d } (i * R + 1) d

/-- The shifting loop of `delDevice`: `n` iterations remain, the counter is `i`. -/
def shiftLoop (R : Nat) : Nat → Nat → DM → DM
  | 0, _, s => s
  | n + 1, i, s => shiftLoop R n (i + 1) (shiftStep R s i)

/-- Source `delDevice`: `none` is the null pointer (remove all devices). -/
def delDevice (R : Nat) (s : DM) (name : Option String) : DM :=
  match name with
  | none =>
    let s1 := writeROM s DEVICE_COUNT_ADDR 0
    { s1 with deviceCount := 0 }
  | some nm =>
    let idx := getDeviceIndexName s nm
    if idx > -1 then
      let s1 := shiftLoop R (s.deviceCount - idx.toNat) idx.toNat s
      let s2 := { s1 with deviceCount := (s1.deviceCount + 255) % 256 }
      writeROM s2 DEVICE_COUNT_ADDR s2.deviceCount
    else
      s

/-- Subscripts of `_devices` evaluated by the scanning loop of `getDeviceIndex`. -/
def scanAccesses (p : Nat → Bool) : Nat → Nat → List Nat
  | 0, _ => []
  | n + 1, i => i :: (if p i then [] else scanAccesses p n (i + 1))

/-- Subscripts of `_devices` evaluated by the shifting loop: each pass reads `i+1` and
writes `i`. -/
def shiftAccesses : Nat → Nat → List Nat
  | 0, _ => []
  | n + 1, i => (i + 1) :: i :: shiftAccesses n (i + 1)

/-- Every subscript of `_devices` that `delDevice` evaluates, in order. -/
def delDeviceAccesses (s : DM) (name : Option String) : List Nat :=
  match name with
  | none => []
  | some nm =>
    let idx := getDeviceIndexName s nm
    scanAccesses (fun i => decide ((s.devices i).name = nm)) s.deviceCount 0
      ++ (if idx > -1 then shiftAccesses (s.deviceCount - idx.toNat) idx.toNat else [])

/-- The loop of `begin` that loads the devices: `n` iterations remain, the counter is `i`. -/
def loadLoop (R : Nat) : Nat → Nat → DM → DM
  | 0, _, s => s
  | n + 1, i, s =>
    loadLoop R n (i + 1) { s with devices := upd s.devices i (s.rom.device (i * R + 1)) }

/-- Source `begin`: decodes the status byte, resets an out-of-range count, then either enters
configuration mode or loads the registry. -/
def begin (R : Nat) (s : DM) : DM :=
  let status := readROM s DEVICE_COUNT_ADDR
  let s1 := { s with deviceCount := statusCount status, alexa := statusAlexa status,
                     mqtt := statusMqtt status }
  let s2 := if s1.deviceCount > 5 ∧ s1.deviceCount < 16 then
      { writeROM s1 DEVICE_COUNT_ADDR 0 with deviceCount := 0 }
    else s1
  if s2.deviceCount = 0 then
    { s2 with config := true }
  else
    let s3 := if s2.mqtt then
        let m := getMqttConfs R s2
        { s2 with mqttHost := m.host, mqttPort := m.port }
      else s2
    loadLoop R s3.deviceCount 0 s3

/-- Modelled from the spec: the member initialisers are in `DeviceManager.h`; the spec has
the node leave Operational mode only when `begin` or `handle` sets the flag, so a freshly
constructed object has `_config` cleared.  The store is what the previous run left. -/
def powerOn (rom : Eeprom) (mem : Nat → Device) : DM :=
  { deviceCount := 0, devices := mem, alexa := false, mqtt := false, config := false,
    mqttHost := "", mqttPort := 0, buttonTimer := 0, rom := rom }

/-- Source `setControlsHandler`: `alexaArg` is `server.hasArg("alexa")`; `mqttArg` is `some (host,
port)` when `server.hasArg("mqtt")`. -/
def setControlsHandler (R : Nat) (s : DM) (alexaArg : Bool) (mqttArg : Option (String × Nat)) :
    DM :=
  let status := readROM s DEVICE_COUNT_ADDR
  let (status1, s1) :=
    if alexaArg then (status ||| 0x10, { s with alexa := true })
    else ((status &&& 0xFFFFFFEF) % 256, { s with alexa := false })
  let (status2, s2) :=
    match mqttArg with
    | some (host, port) =>
      (status1 ||| 0x20,
        saveMqttConfs R { s1 with mqtt := true, mqttHost := host, mqttPort := port })
    | none => ((status1 &&& 0xFFFFFFDF) % 256, { s1 with mqtt := false })
  writeROM s2 DEVICE_COUNT_ADDR status2

/-- A request served by the configuration server; each constructor is one registered
handler.  `page` stands for the handlers that only render a page or answer with an error
status, `add` for a well-formed `/add` request.  The restart handler ends the run and is
not a request of this type. -/
inductive Request where
  | page
  | add (pin : Nat) (name : String)
  | del (name : Option String)
  | controls (alexaArg : Bool) (mqttArg : Option (String × Nat))

/-- The call `server.handleClient()`: runs the handler of the pending request, if any. -/
def handleClient (L R : Nat) (s : DM) : Option Request → DM
  | none => s
  | some .page => s
  | some (.add pin name) => (addDevice L R s (pin % 256) name).2
  | some (.del name) => delDevice R s name
  | some (.controls a m) => setControlsHandler R s a m

/-- Value of `millis() - _buttonTimer` in `unsigned long` arithmetic. -/
def elapsed (s : DM) (now : Nat) : Nat :=
  (now % 2 ^ 32 + 2 ^ 32 - s.buttonTimer % 2 ^ 32) % 2 ^ 32

/-- Source `handle`: one tick.  `req` is the request pending at the server, `pressed` is
`digitalRead(CONFIG_PIN) == LOW`, `now` is `millis()`. -/
def handle (btn L R : Nat) (s : DM) (req : Option Request) (pressed : Bool) (now : Nat) : DM :=
  let s1 := if s.config then handleClient L R s req else s
  if pressed then
    if elapsed s1 now > btn ∧ ¬ s1.config then { s1 with config := true } else s1
  else
    { s1 with buttonTimer := now % 2 ^ 32 }

/-- A registry mutation issued by a caller. -/
inductive Op where
  | add (pin : Nat) (name : String)
  | del (name : Option String)

/-- Effect of one registry mutation. -/
def applyOp (L R : Nat) (s : DM) : Op → DM
  | .add pin name => (addDevice L R s pin name).2
  | .del name => delDevice R s name

/-- Effect of a sequence of registry mutations, first to last. -/
def runOps (L R : Nat) (s : DM) (ops : List Op) : DM :=
  ops.foldl (applyOp L R) s

/-- The live part of the registry: slots `0 .. count-1`, in order. -/
def live (s : DM) : List Device :=
  (List.range s.deviceCount).map s.devices

/-- An erased store: every byte reads `0xff`. -/
def blankRom : Eeprom :=
  { byte := fun _ => 0xff, device := fun _ => default, mqtt := fun _ => default }

/-- Whether the name of an `add` fits the name buffer of `L` bytes with its terminator. -/
def nameFits (L : Nat) : Op → Bool
  | .add _ name => decide (name.length < L)
  | .del _ => true

/-- A registry of two devices both named `lamp`, as `begin` loads it from a store whose
status byte is 2 and whose first two records carry that name. -/
def repeatedLamp : DM :=
  begin 10 (powerOn
    { byte := fun _ => 2,
      device := fun a => if a = 1 then ⟨4, "lamp", false⟩ else ⟨5, "lamp", false⟩,
      mqtt := fun _ => default } (fun _ => default))

/-- A registry `[lamp, fan, heater]` built by three successful `addDevice` calls. -/
def lampFanHeater : DM :=
  runOps 8 10 (powerOn blankRom (fun _ => default))
    [.add 4 "lamp", .add 5 "fan", .add 6 "heater"]

/-- The registry after `addDevice(4, "chandelier")` and `addDevice(5, "chandelier")` with an
8-byte name buffer. -/
def chandelierTwice : DM :=
  runOps 8 10 (powerOn blankRom (fun _ => default))
    [.add 4 "chandelier", .add 5 "chandelier"]

/-- A node in configuration mode whose registry is `[lamp on pin 4, fan on pin 5]`. -/
def lampFan : DM :=
  { deviceCount := 2,
    devices := fun i => if i = 0 then ⟨4, "lamp", false⟩ else ⟨5, "fan", false⟩,
    alexa := false, mqtt := false, config := true, mqttHost := "", mqttPort := 0,
    buttonTimer := 0,
    rom := { byte := fun _ => 2, device := fun _ => default, mqtt := fun _ => default } }

/-- The registry is within capacity and its live devices have pairwise distinct names and
pairwise distinct pins. -/
def Distinct (s : DM) : Prop :=
  s.deviceCount ≤ MAX_DEVICES ∧
    ∀ i j, i < s.deviceCount → j < s.deviceCount → i ≠ j →
      (s.devices i).name ≠ (s.devices j).name ∧ (s.devices i).pin ≠ (s.devices j).pin

/-- The run `add lamp, add fan, add lamp again (rejected), delete lamp`. -/
def lampFanOps : List Op :=
  [.add 4 "lamp", .add 5 "fan", .add 6 "lamp", .del (some "lamp")]

/-- The store mirrors the live registry: within capacity, a non-empty registry has its count
in the status byte, and the record of every live slot equals the device in memory. -/
def Mirrored (R : Nat) (s : DM) : Prop :=
  s.deviceCount ≤ MAX_DEVICES
    ∧ (1 ≤ s.deviceCount → readROM s DEVICE_COUNT_ADDR = s.deviceCount)
    ∧ ∀ i, i < s.deviceCount → s.rom.device (i * R + 1) = s.devices i

/-- A fresh object over a store with the given status byte and leftover device records. -/
def staleStore (status : Nat) : DM :=
  powerOn { byte := fun _ => status, device := fun _ => ⟨4, "lamp", true⟩,
            mqtt := fun _ => default } (fun _ => default)

/-- The status byte `setControlsHandler` computes from the byte `st` it read. -/
def flagsByte (st : Nat) (a b : Bool) : Nat :=
  let st1 := if a then st ||| 0x10 else (st &&& 0xFFFFFFEF) % 256
  if b then st1 ||| 0x20 else (st1 &&& 0xFFFFFFDF) % 256

/-- A node booted into Operational mode from a store holding one device; `_buttonTimer`
is 0. -/
def idle : DM :=
  begin 10 (powerOn (runOps 8 10 (powerOn blankRom (fun _ => default)) [.add 4 "lamp"]).rom
    (fun _ => default))

/-- One step of a run: a tick of `handle`, or a direct call of a registry or flag
operation, or `begin`. -/
inductive Step where
  | tick (req : Option Request) (pressed : Bool) (now : Nat)
  | addDevice (pin : Nat) (name : String)
  | delDevice (name : Option String)
  | setControls (alexaArg : Bool) (mqttArg : Option (String × Nat))
  | saveMqttConfs
  | getMqttConfs
  | begin

/-- Effect of one step on the state. -/
def step (btn L R : Nat) (s : DM) : Step → DM
  | .tick req pressed now => handle btn L R s req pressed now
  | .addDevice pin name => (addDevice L R s pin name).2
  | .delDevice name => delDevice R s name
  | .setControls a m => setControlsHandler R s a m
  | .saveMqttConfs => saveMqttConfs R s
  | .getMqttConfs => s
  | .begin => begin R s

/-- A node in configuration mode with an empty registry after the assistant flag was
switched on through the controls form. -/
def assistantOn : DM :=
  setControlsHandler 10 (begin 10 (powerOn blankRom (fun _ => default))) true none

/-- A node holding `lamp` whose assistant and bus flags were then switched on. -/
def lampWithFlags : DM :=
  setControlsHandler 10 (addDevice 8 10 assistantOn 4 "lamp").2 true (some ("broker", 1883))

/-- A registry filled to capacity by five successful `addDevice` calls. -/
def fullRegistry : DM :=
  runOps 8 10 (powerOn blankRom (fun _ => default))
    [.add 1 "a", .add 2 "b", .add 3 "c", .add 4 "d", .add 5 "e"]

/-! ## Auxiliary lemmas -/

@[simp] theorem upd_same {α : Type} (f : Nat → α) (a : Nat) (v : α) : upd f a v a = v := by
  simp [upd]

theorem upd_ne {α : Type} (f : Nat → α) (a : Nat) (v : α) (x : Nat) (h : x ≠ a) :
    upd f a v x = f x := by
  simp [upd, h]

theorem readROM_writeROM (s : DM) (a d : Nat) : readROM (writeROM s a d) a = d % 256 := by
  show upd s.rom.byte a (d % 256) a % 256 = d % 256
  rw [upd_same]
  exact Nat.mod_mod _ _

theorem readROM_writeROM_ne (s : DM) (a b d : Nat) (h : b ≠ a) :
    readROM (writeROM s a d) b = readROM s b := by
  show upd s.rom.byte a (d % 256) b % 256 = s.rom.byte b % 256
  rw [upd_ne _ _ _ _ h]

theorem toInt8_of_lt {i : Nat} (h : i < 128) : toInt8 i = (i : Int) := by
  unfold toInt8
  have h1 : i % 256 = i := Nat.mod_eq_of_lt (by omega)
  rw [h1, if_pos h]

theorem toInt8_ne_neg_one {i : Nat} (h : i < 255) : toInt8 i ≠ -1 := by
  unfold toInt8
  have h1 : i % 256 = i := Nat.mod_eq_of_lt (by omega)
  rw [h1]
  split <;> omega

/-- The scan reports `-1` exactly when no index of the scanned range satisfies `p`. -/
theorem scanIndex_eq_neg_one_iff (p : Nat → Bool) (n i : Nat) (h : i + n ≤ 255) :
    scanIndex p n i = -1 ↔ ∀ j, i ≤ j → j < i + n → p j = false := by
  induction n generalizing i with
  | zero =>
    simp only [scanIndex, true_iff]
    intro j h1 h2
    omega
  | succ n ih =>
    simp only [scanIndex]
    by_cases hp : p i = true
    · rw [if_pos hp]
      constructor
      · intro h1
        exact absurd h1 (toInt8_ne_neg_one (by omega))
      · intro h1
        have := h1 i (Nat.le_refl i) (by omega)
        rw [hp] at this
        exact absurd this (by decide)
    · rw [if_neg hp, ih (i + 1) (by omega)]
      constructor
      · intro h1 j hj1 hj2
        by_cases hji : j = i
        · subst hji
          simpa using hp
        · exact h1 j (by omega) (by omega)
      · intro h1 j hj1 hj2
        exact h1 j (by omega) (by omega)

/-- The scan reports `k` exactly when `k` is the first index of the range satisfying `p`. -/
theorem scanIndex_eq_iff (p : Nat → Bool) (n i k : Nat) (h : i + n ≤ 128) :
    scanIndex p n i = (k : Int) ↔
      i ≤ k ∧ k < i + n ∧ p k = true ∧ ∀ j, i ≤ j → j < k → p j = false := by
  induction n generalizing i with
  | zero =>
    simp only [scanIndex]
    constructor
    · intro h1
      omega
    · rintro ⟨h1, h2, _⟩
      omega
  | succ n ih =>
    simp only [scanIndex]
    by_cases hp : p i = true
    · rw [if_pos hp, toInt8_of_lt (by omega)]
      constructor
      · intro h1
        have hik : i = k := by exact_mod_cast h1
        subst hik
        refine ⟨Nat.le_refl _, by omega, hp, ?_⟩
        intro j h2 h3
        omega
      · rintro ⟨h1, h2, h3, h4⟩
        by_cases hik : i = k
        · rw [hik]
        · have := h4 i (Nat.le_refl i) (by omega)
          rw [hp] at this
          exact absurd this (by decide)
    · rw [if_neg hp, ih (i + 1) (by omega)]
      constructor
      · rintro ⟨h1, h2, h3, h4⟩
        refine ⟨by omega, by omega, h3, ?_⟩
        intro j hj1 hj2
        by_cases hji : j = i
        · subst hji
          simpa using hp
        · exact h4 j (by omega) hj2
      · rintro ⟨h1, h2, h3, h4⟩
        have hik : i ≠ k := by
          intro e
          subst e
          exact hp h3
        exact ⟨by omega, by omega, h3, fun j hj1 hj2 => h4 j (by omega) hj2⟩

/-- The scan never reports a value below `-1` on a range that fits `int8_t`, and a value
above `-1` is the index of a match. -/
theorem scanIndex_cases (p : Nat → Bool) (n i : Nat) (h : i + n ≤ 128) :
    scanIndex p n i = -1 ∨ ∃ k : Nat, scanIndex p n i = (k : Int) := by
  induction n generalizing i with
  | zero => exact Or.inl rfl
  | succ n ih =>
    simp only [scanIndex]
    by_cases hp : p i = true
    · rw [if_pos hp, toInt8_of_lt (by omega)]
      exact Or.inr ⟨i, rfl⟩
    · rw [if_neg hp]
      exact ih (i + 1) (by omega)

theorem shiftLoop_deviceCount (R n i : Nat) (s : DM) :
    (shiftLoop R n i s).deviceCount = s.deviceCount := by
  induction n generalizing i s with
  | zero => rfl
  | succ n ih => simp only [shiftLoop]; rw [ih]; rfl

theorem shiftLoop_config (R n i : Nat) (s : DM) :
    (shiftLoop R n i s).config = s.config := by
  induction n generalizing i s with
  | zero => rfl
  | succ n ih => simp only [shiftLoop]; rw [ih]; rfl

theorem shiftLoop_byte (R n i : Nat) (s : DM) :
    (shiftLoop R n i s).rom.byte = s.rom.byte := by
  induction n generalizing i s with
  | zero => rfl
  | succ n ih => simp only [shiftLoop]; rw [ih]; rfl

/-- After the shifting loop every slot of the shifted range holds its former right
neighbour and every other slot is untouched. -/
theorem shiftLoop_devices (R n i : Nat) (s : DM) (j : Nat) :
    (shiftLoop R n i s).devices j =
      if i ≤ j ∧ j < i + n then s.devices (j + 1) else s.devices j := by
  induction n generalizing i s with
  | zero =>
    simp only [shiftLoop]
    rw [if_neg (by omega)]
  | succ n ih =>
    simp only [shiftLoop]
    rw [ih]
    have hd : (shiftStep R s i).devices = upd s.devices i (s.devices (i + 1)) := rfl
    rw [hd]
    by_cases h1 : i + 1 ≤ j ∧ j < i + 1 + n
    · rw [if_pos h1, if_pos (by omega), upd_ne _ _ _ _ (by omega)]
    · rw [if_neg h1]
      by_cases h2 : j = i
      · subst h2
        rw [upd_same, if_pos (by omega)]
      · rw [upd_ne _ _ _ _ h2, if_neg (by omega)]

theorem slot_addr_inj {R : Nat} (hR : 0 < R) {i j : Nat} (h : j * R + 1 = i * R + 1) :
    j = i :=
  Nat.eq_of_mul_eq_mul_right hR (by omega)

/-- The store follows the shifting loop: the record of every shifted slot is the device that
moved into that slot. -/
theorem shiftLoop_rom (R : Nat) (hR : 0 < R) (n i : Nat) (s : DM) (j : Nat) :
    (shiftLoop R n i s).rom.device (j * R + 1) =
      if i ≤ j ∧ j < i + n then s.devices (j + 1) else s.rom.device (j * R + 1) := by
  induction n generalizing i s with
  | zero =>
    simp only [shiftLoop]
    rw [if_neg (by omega)]
  | succ n ih =>
    simp only [shiftLoop]
    rw [ih]
    have hd : (shiftStep R s i).devices = upd s.devices i (s.devices (i + 1)) := rfl
    have hr : (shiftStep R s i).rom.device
        = upd s.rom.device (i * R + 1) (s.devices (i + 1)) := rfl
    rw [hd, hr]
    by_cases h1 : i + 1 ≤ j ∧ j < i + 1 + n
    · rw [if_pos h1, if_pos (by omega), upd_ne _ _ _ _ (by omega)]
    · rw [if_neg h1]
      by_cases h2 : j = i
      · subst h2
        rw [upd_same, if_pos (by omega)]
      · have h3 : j * R + 1 ≠ i * R + 1 := fun e => h2 (slot_addr_inj hR e)
        rw [upd_ne _ _ _ _ h3, if_neg (by omega)]

theorem loadLoop_deviceCount (R n i : Nat) (s : DM) :
    (loadLoop R n i s).deviceCount = s.deviceCount := by
  induction n generalizing i s with
  | zero => rfl
  | succ n ih => simp only [loadLoop]; rw [ih]

theorem loadLoop_config (R n i : Nat) (s : DM) :
    (loadLoop R n i s).config = s.config := by
  induction n generalizing i s with
  | zero => rfl
  | succ n ih => simp only [loadLoop]; rw [ih]

/-- The loading loop copies the record of every slot of its range into memory. -/
theorem loadLoop_devices (R n i : Nat) (s : DM) (j : Nat) :
    (loadLoop R n i s).devices j =
      if i ≤ j ∧ j < i + n then s.rom.device (j * R + 1) else s.devices j := by
  induction n generalizing i s with
  | zero =>
    simp only [loadLoop]
    rw [if_neg (by omega)]
  | succ n ih =>
    simp only [loadLoop]
    rw [ih]
    by_cases h1 : i + 1 ≤ j ∧ j < i + 1 + n
    · rw [if_pos h1, if_pos (by omega)]
    · rw [if_neg h1]
      by_cases h2 : j = i
      · subst h2
        rw [if_pos (by omega)]
        exact upd_same _ _ _
      · rw [if_neg (by omega)]
        exact upd_ne _ _ _ _ h2

/-- On a registry within capacity a lookup by name reports `k` exactly when `k` is the first
live slot with that name. -/
theorem getDeviceIndexName_eq_iff (s : DM) (name : String) (k : Nat)
    (h : s.deviceCount ≤ MAX_DEVICES) :
    getDeviceIndexName s name = (k : Int) ↔
      k < s.deviceCount ∧ (s.devices k).name = name
        ∧ ∀ j, j < k → (s.devices j).name ≠ name := by
  unfold getDeviceIndexName
  have h5 : s.deviceCount ≤ 5 := h
  rw [scanIndex_eq_iff _ _ _ _ (by omega)]
  simp

theorem getDeviceIndexName_none_iff (s : DM) (name : String)
    (h : s.deviceCount ≤ MAX_DEVICES) :
    getDeviceIndexName s name = -1 ↔
      ∀ j, j < s.deviceCount → (s.devices j).name ≠ name := by
  unfold getDeviceIndexName
  have h5 : s.deviceCount ≤ 5 := h
  rw [scanIndex_eq_neg_one_iff _ _ _ (by omega)]
  simp

theorem getDeviceIndexPin_none_iff (s : DM) (pin : Nat)
    (h : s.deviceCount ≤ MAX_DEVICES) :
    getDeviceIndexPin s pin = -1 ↔ ∀ j, j < s.deviceCount → (s.devices j).pin ≠ pin := by
  unfold getDeviceIndexPin
  have h5 : s.deviceCount ≤ 5 := h
  rw [scanIndex_eq_neg_one_iff _ _ _ (by omega)]
  simp

theorem getDeviceIndexName_cases (s : DM) (name : String)
    (h : s.deviceCount ≤ MAX_DEVICES) :
    getDeviceIndexName s name = -1 ∨ ∃ k : Nat, getDeviceIndexName s name = (k : Int) := by
  have h5 : s.deviceCount ≤ 5 := h
  exact scanIndex_cases _ _ _ (by omega)

/-- Unfolding of `delDevice` when the lookup reports index `k`. -/
theorem delDevice_found (R : Nat) (s : DM) (name : String) (k : Nat)
    (h : getDeviceIndexName s name = (k : Int)) :
    delDevice R s (some name) =
      writeROM { shiftLoop R (s.deviceCount - k) k s with
                 deviceCount := (s.deviceCount + 255) % 256 }
        DEVICE_COUNT_ADDR ((s.deviceCount + 255) % 256) := by
  have hpos : (k : Int) > -1 := by omega
  simp only [delDevice, h, hpos, if_true, Int.toNat_ofNat, shiftLoop_deviceCount]

/-- Unfolding of `delDevice` when the lookup reports no match. -/
theorem delDevice_missing (R : Nat) (s : DM) (name : String)
    (h : getDeviceIndexName s name = -1) : delDevice R s (some name) = s := by
  simp [delDevice, h]

theorem delDevice_found_count (R : Nat) (s : DM) (name : String) (k : Nat)
    (hn : s.deviceCount ≤ MAX_DEVICES) (h : getDeviceIndexName s name = (k : Int)) :
    (delDevice R s (some name)).deviceCount = s.deviceCount - 1 := by
  have hk := ((getDeviceIndexName_eq_iff s name k hn).1 h).1
  have h5 : s.deviceCount ≤ 5 := hn
  rw [delDevice_found R s name k h]
  show (s.deviceCount + 255) % 256 = s.deviceCount - 1
  omega

theorem delDevice_found_devices (R : Nat) (s : DM) (name : String) (k : Nat)
    (hn : s.deviceCount ≤ MAX_DEVICES) (h : getDeviceIndexName s name = (k : Int))
    (j : Nat) :
    (delDevice R s (some name)).devices j =
      if k ≤ j ∧ j < s.deviceCount then s.devices (j + 1) else s.devices j := by
  have hk := ((getDeviceIndexName_eq_iff s name k hn).1 h).1
  rw [delDevice_found R s name k h]
  show (shiftLoop R (s.deviceCount - k) k s).devices j = _
  rw [shiftLoop_devices]
  have e : k + (s.deviceCount - k) = s.deviceCount := by omega
  rw [e]

theorem delDevice_found_rom (R : Nat) (hR : 0 < R) (s : DM) (name : String) (k : Nat)
    (hn : s.deviceCount ≤ MAX_DEVICES) (h : getDeviceIndexName s name = (k : Int))
    (j : Nat) :
    (delDevice R s (some name)).rom.device (j * R + 1) =
      if k ≤ j ∧ j < s.deviceCount then s.devices (j + 1) else s.rom.device (j * R + 1) := by
  have hk := ((getDeviceIndexName_eq_iff s name k hn).1 h).1
  rw [delDevice_found R s name k h]
  show (shiftLoop R (s.deviceCount - k) k s).rom.device (j * R + 1) = _
  rw [shiftLoop_rom R hR]
  have e : k + (s.deviceCount - k) = s.deviceCount := by omega
  rw [e]

theorem delDevice_found_status (R : Nat) (s : DM) (name : String) (k : Nat)
    (hn : s.deviceCount ≤ MAX_DEVICES) (h : getDeviceIndexName s name = (k : Int)) :
    readROM (delDevice R s (some name)) DEVICE_COUNT_ADDR = s.deviceCount - 1 := by
  have hk := ((getDeviceIndexName_eq_iff s name k hn).1 h).1
  have h5 : s.deviceCount ≤ 5 := hn
  rw [delDevice_found R s name k h, readROM_writeROM]
  omega

theorem statusCount_of_le {n : Nat} (h : n ≤ 5) : statusCount n = n := by
  unfold statusCount
  interval_cases n <;> rfl

theorem length_live (s : DM) : (live s).length = s.deviceCount := by
  simp [live]

theorem getElem_live (s : DM) (j : Nat) (h : j < (live s).length) :
    (live s)[j] = s.devices j := by
  simp [live]

/-! ## C3 -/

/-- C3 as stated fails when the name is repeated: in a registry of two devices both named
`lamp` (as `begin` loads it from such a store) the name matches the live device at index 1,
yet `delDevice("lamp")` erases index 0 and the result is not the old sequence without
index 1. -/
theorem delDevice_repeated_name_erases_first :
    repeatedLamp.deviceCount ≤ MAX_DEVICES
      ∧ 1 < repeatedLamp.deviceCount
      ∧ (repeatedLamp.devices 1).name = "lamp"
      ∧ live (delDevice 10 repeatedLamp (some "lamp")) ≠ (live repeatedLamp).eraseIdx 1
      ∧ live (delDevice 10 repeatedLamp (some "lamp")) = (live repeatedLamp).eraseIdx 0 := by
  decide

/-- C3 amended: on a registry of `n ≤ MAX_DEVICES` devices, when `k` is the first live index
whose device is named `name`, `delDevice(name)` leaves the old live sequence with exactly
the element at index `k` erased (survivors in order), of length `n - 1`, and the count field
of the stored status byte is `n - 1`. -/
theorem delDevice_erases_first_match (R : Nat) (s : DM) (name : String) (k : Nat)
    (hn : s.deviceCount ≤ MAX_DEVICES) (hlt : k < s.deviceCount)
    (hname : (s.devices k).name = name)
    (hfirst : ∀ j, j < k → (s.devices j).name ≠ name) :
    live (delDevice R s (some name)) = (live s).eraseIdx k
      ∧ (live (delDevice R s (some name))).length = s.deviceCount - 1
      ∧ statusCount (readROM (delDevice R s (some name)) DEVICE_COUNT_ADDR)
          = s.deviceCount - 1 := by
  have hk : getDeviceIndexName s name = (k : Int) :=
    (getDeviceIndexName_eq_iff s name k hn).2 ⟨hlt, hname, hfirst⟩
  have h5 : s.deviceCount ≤ 5 := hn
  have hcnt := delDevice_found_count R s name k hn hk
  have hlen : (live (delDevice R s (some name))).length = s.deviceCount - 1 := by
    rw [length_live, hcnt]
  refine ⟨?_, hlen, ?_⟩
  · have hlen2 : ((live s).eraseIdx k).length = s.deviceCount - 1 := by
      rw [List.length_eraseIdx, length_live, if_pos hlt]
    apply List.ext_getElem (by rw [hlen, hlen2])
    intro j h1 h2
    rw [getElem_live, delDevice_found_devices R s name k hn hk]
    rw [hlen] at h1
    by_cases hjk : j < k
    · rw [if_neg (by omega), List.getElem_eraseIdx_of_lt _ _ _ h2 hjk, getElem_live]
    · rw [if_pos (by omega), List.getElem_eraseIdx_of_ge _ _ _ h2 (by omega), getElem_live]
  · rw [delDevice_found_status R s name k hn hk]
    exact statusCount_of_le (by omega)

/-- C3 amended, at the registry `[lamp, fan, heater]`: deleting `fan`, first found at index
1, so that `heater` moves from slot 2 to slot 1. -/
theorem delDevice_erases_first_match_witness :
    live (delDevice 10 lampFanHeater (some "fan")) = (live lampFanHeater).eraseIdx 1
      ∧ (live (delDevice 10 lampFanHeater (some "fan"))).length
          = lampFanHeater.deviceCount - 1
      ∧ statusCount (readROM (delDevice 10 lampFanHeater (some "fan")) DEVICE_COUNT_ADDR)
          = lampFanHeater.deviceCount - 1 :=
  delDevice_erases_first_match 10 lampFanHeater "fan" 1 (by decide) (by decide) (by decide)
    (by decide)

/-! ## C2 -/

/-- Unfolding of a successful `addDevice`. -/
theorem addDevice_ok (L R : Nat) (s : DM) (pin : Nat) (name : String)
    (h : s.deviceCount < MAX_DEVICES ∧ getDeviceIndexName s name = -1
      ∧ getDeviceIndexPin s pin = -1) :
    addDevice L R s pin name =
      (true, writeROM
        { putDevice { s with devices := upd s.devices s.deviceCount ⟨pin, strcpy L name, false⟩ }
            (s.deviceCount * R + 1) ⟨pin, strcpy L name, false⟩ with
          deviceCount := (s.deviceCount + 1) % 256 }
        DEVICE_COUNT_ADDR ((s.deviceCount + 1) % 256)) := by
  unfold addDevice
  rw [if_pos h]
  rfl

/-- Unfolding of a rejected `addDevice`. -/
theorem addDevice_rejected (L R : Nat) (s : DM) (pin : Nat) (name : String)
    (h : ¬ (s.deviceCount < MAX_DEVICES ∧ getDeviceIndexName s name = -1
      ∧ getDeviceIndexPin s pin = -1)) :
    addDevice L R s pin name = (false, s) := by
  unfold addDevice
  rw [if_neg h]

/-- C2: `addDevice(pin, name)` returns true exactly when the registry is below capacity and
no live device has that name or that pin; when it returns false the whole state, the store
included, is what it was before the call. -/
theorem addDevice_true_iff_and_rejected_unchanged (L R : Nat) (s : DM) (pin : Nat)
    (name : String) :
    ((addDevice L R s pin name).1 = true ↔
        s.deviceCount < MAX_DEVICES
          ∧ (∀ j, j < s.deviceCount → (s.devices j).name ≠ name)
          ∧ (∀ j, j < s.deviceCount → (s.devices j).pin ≠ pin))
      ∧ ((addDevice L R s pin name).1 = false → (addDevice L R s pin name).2 = s) := by
  by_cases h : s.deviceCount < MAX_DEVICES ∧ getDeviceIndexName s name = -1
      ∧ getDeviceIndexPin s pin = -1
  · rw [addDevice_ok L R s pin name h]
    refine ⟨⟨fun _ => ?_, fun _ => rfl⟩, fun hf => absurd hf (by simp)⟩
    have hle : s.deviceCount ≤ MAX_DEVICES := Nat.le_of_lt h.1
    exact ⟨h.1, (getDeviceIndexName_none_iff s name hle).1 h.2.1,
      (getDeviceIndexPin_none_iff s pin hle).1 h.2.2⟩
  · rw [addDevice_rejected L R s pin name h]
    refine ⟨⟨fun hf => absurd hf (by simp), fun hc => ?_⟩, fun _ => rfl⟩
    have hle : s.deviceCount ≤ MAX_DEVICES := Nat.le_of_lt hc.1
    exact absurd ⟨hc.1, (getDeviceIndexName_none_iff s name hle).2 hc.2.1,
      (getDeviceIndexPin_none_iff s pin hle).2 hc.2.2⟩ h

/-! ## C1 -/

theorem addDevice_ok_count (L R : Nat) (s : DM) (pin : Nat) (name : String)
    (h : s.deviceCount < MAX_DEVICES ∧ getDeviceIndexName s name = -1
      ∧ getDeviceIndexPin s pin = -1) :
    (addDevice L R s pin name).2.deviceCount = s.deviceCount + 1 := by
  have h5 : s.deviceCount < 5 := h.1
  rw [addDevice_ok L R s pin name h]
  show (s.deviceCount + 1) % 256 = s.deviceCount + 1
  omega

theorem addDevice_ok_devices (L R : Nat) (s : DM) (pin : Nat) (name : String)
    (h : s.deviceCount < MAX_DEVICES ∧ getDeviceIndexName s name = -1
      ∧ getDeviceIndexPin s pin = -1) :
    (addDevice L R s pin name).2.devices = upd s.devices s.deviceCount ⟨pin, strcpy L name, false⟩ := by
  rw [addDevice_ok L R s pin name h]
  rfl

theorem strcpy_of_fits (L : Nat) (name : String) (h : name.length < L) :
    strcpy L name = name := by
  unfold strcpy
  rw [if_pos h]

theorem Distinct_addDevice (L R : Nat) (s : DM) (pin : Nat) (name : String)
    (hfit : name.length < L) (hs : Distinct s) :
    Distinct (addDevice L R s pin name).2 := by
  by_cases h : s.deviceCount < MAX_DEVICES ∧ getDeviceIndexName s name = -1
      ∧ getDeviceIndexPin s pin = -1
  · have hc := addDevice_ok_count L R s pin name h
    have hd := addDevice_ok_devices L R s pin name h
    have hname := (getDeviceIndexName_none_iff s name hs.1).1 h.2.1
    have hpin := (getDeviceIndexPin_none_iff s pin hs.1).1 h.2.2
    refine ⟨by rw [hc]; exact h.1, ?_⟩
    intro i j hi hj hij
    rw [hc] at hi hj
    rw [hd, strcpy_of_fits L name hfit]
    by_cases hin : i = s.deviceCount
    · have hjn : j ≠ s.deviceCount := fun e => hij (hin.trans e.symm)
      rw [hin, upd_same, upd_ne _ _ _ _ hjn]
      exact ⟨fun e => hname j (by omega) e.symm, fun e => hpin j (by omega) e.symm⟩
    · rw [upd_ne _ _ _ _ hin]
      by_cases hjn : j = s.deviceCount
      · rw [hjn, upd_same]
        exact ⟨hname i (by omega), hpin i (by omega)⟩
      · rw [upd_ne _ _ _ _ hjn]
        exact hs.2 i j (by omega) (by omega) hij
  · rw [addDevice_rejected L R s pin name h]
    exact hs

theorem Distinct_delDevice (R : Nat) (s : DM) (name : Option String) (hs : Distinct s) :
    Distinct (delDevice R s name) := by
  cases name with
  | none =>
    refine ⟨Nat.zero_le _, ?_⟩
    intro i j hi
    exact absurd hi (Nat.not_lt_zero i)
  | some nm =>
    rcases getDeviceIndexName_cases s nm hs.1 with h | ⟨k, h⟩
    · rw [delDevice_missing R s nm h]
      exact hs
    · have hk := ((getDeviceIndexName_eq_iff s nm k hs.1).1 h).1
      have hc := delDevice_found_count R s nm k hs.1 h
      have hle := hs.1
      refine ⟨by rw [hc]; omega, ?_⟩
      intro i j hi hj hij
      rw [hc] at hi hj
      rw [delDevice_found_devices R s nm k hs.1 h, delDevice_found_devices R s nm k hs.1 h]
      by_cases h1 : k ≤ i ∧ i < s.deviceCount <;> by_cases h2 : k ≤ j ∧ j < s.deviceCount
      · rw [if_pos h1, if_pos h2]
        exact hs.2 _ _ (by omega) (by omega) (by omega)
      · rw [if_pos h1, if_neg h2]
        exact hs.2 _ _ (by omega) (by omega) (by omega)
      · rw [if_neg h1, if_pos h2]
        exact hs.2 _ _ (by omega) (by omega) (by omega)
      · rw [if_neg h1, if_neg h2]
        exact hs.2 _ _ (by omega) (by omega) (by omega)

/-- While every added name fits the name buffer, a sequence of registry mutations keeps the
registry within capacity with pairwise distinct names and pairwise distinct pins. -/
theorem Distinct_runOps (L R : Nat) (ops : List Op) (s : DM)
    (hfit : ∀ op, op ∈ ops → nameFits L op = true) (hs : Distinct s) :
    Distinct (runOps L R s ops) := by
  induction ops generalizing s with
  | nil => exact hs
  | cons op ops ih =>
    show Distinct (runOps L R (applyOp L R s op) ops)
    apply ih (applyOp L R s op) (fun o ho => hfit o (List.mem_cons_of_mem _ ho))
    have hop := hfit op (List.mem_cons_self _ _)
    cases op with
    | add pin name =>
      exact Distinct_addDevice L R s pin name (by simpa [nameFits] using hop) hs
    | del name => exact Distinct_delDevice R s name hs

/-- C1 fails on the code for a name that does not fit the name buffer: with an 8-byte
buffer, `addDevice(4, "chandelier")` and `addDevice(5, "chandelier")` both return true,
because the record keeps only `chandeli` and the lookup of the full name misses it; the
registry then holds two live devices with the same name. -/
theorem overlong_name_is_accepted_twice :
    (addDevice 8 10 (powerOn blankRom (fun _ => default)) 4 "chandelier").1 = true
      ∧ (addDevice 8 10 (addDevice 8 10 (powerOn blankRom (fun _ => default)) 4
            "chandelier").2 5 "chandelier").1 = true
      ∧ chandelierTwice.deviceCount = 2
      ∧ (chandelierTwice.devices 0).name = "chandeli"
      ∧ (chandelierTwice.devices 0).name = (chandelierTwice.devices 1).name := by
  decide

/-! ## C4 -/

theorem Mirrored_addDevice (L R : Nat) (hR : 0 < R) (s : DM) (pin : Nat) (name : String)
    (hs : Mirrored R s) : Mirrored R (addDevice L R s pin name).2 := by
  by_cases h : s.deviceCount < MAX_DEVICES ∧ getDeviceIndexName s name = -1
      ∧ getDeviceIndexPin s pin = -1
  · have hc := addDevice_ok_count L R s pin name h
    have hd := addDevice_ok_devices L R s pin name h
    have h5 : s.deviceCount < 5 := h.1
    have hrom : (addDevice L R s pin name).2.rom.device
        = upd s.rom.device (s.deviceCount * R + 1) ⟨pin, strcpy L name, false⟩ := by
      rw [addDevice_ok L R s pin name h]
      rfl
    have hst : readROM (addDevice L R s pin name).2 DEVICE_COUNT_ADDR = s.deviceCount + 1 := by
      rw [addDevice_ok L R s pin name h]
      show readROM (writeROM _ _ _) _ = _
      rw [readROM_writeROM]
      omega
    refine ⟨by rw [hc]; exact h.1, fun _ => by rw [hst, hc], ?_⟩
    intro i hi
    rw [hc] at hi
    rw [hrom, hd]
    by_cases hin : i = s.deviceCount
    · rw [hin, upd_same, upd_same]
    · have hne : i * R + 1 ≠ s.deviceCount * R + 1 := fun e => hin (slot_addr_inj hR e)
      rw [upd_ne _ _ _ _ hne, upd_ne _ _ _ _ hin]
      exact hs.2.2 i (by omega)
  · rw [addDevice_rejected L R s pin name h]
    exact hs

theorem Mirrored_delDevice (R : Nat) (hR : 0 < R) (s : DM) (name : Option String)
    (hs : Mirrored R s) : Mirrored R (delDevice R s name) := by
  cases name with
  | none =>
    refine ⟨Nat.zero_le _, fun h => absurd h (Nat.not_succ_le_zero 0), ?_⟩
    intro i hi
    exact absurd hi (Nat.not_lt_zero i)
  | some nm =>
    rcases getDeviceIndexName_cases s nm hs.1 with h | ⟨k, h⟩
    · rw [delDevice_missing R s nm h]
      exact hs
    · have hk := ((getDeviceIndexName_eq_iff s nm k hs.1).1 h).1
      have hc := delDevice_found_count R s nm k hs.1 h
      have hle := hs.1
      refine ⟨by rw [hc]; omega,
        fun _ => by rw [delDevice_found_status R s nm k hs.1 h, hc], ?_⟩
      intro i hi
      rw [hc] at hi
      rw [delDevice_found_rom R hR s nm k hs.1 h, delDevice_found_devices R s nm k hs.1 h]
      by_cases h1 : k ≤ i ∧ i < s.deviceCount
      · rw [if_pos h1, if_pos h1]
      · rw [if_neg h1, if_neg h1]
        exact hs.2.2 i (by omega)

theorem Mirrored_runOps (L R : Nat) (hR : 0 < R) (ops : List Op) (s : DM) (hs : Mirrored R s) :
    Mirrored R (runOps L R s ops) := by
  induction ops generalizing s with
  | nil => exact hs
  | cons op ops ih =>
    show Mirrored R (runOps L R (applyOp L R s op) ops)
    apply ih
    cases op with
    | add pin name => exact Mirrored_addDevice L R hR s pin name hs
    | del name => exact Mirrored_delDevice R hR s name hs

/-- Effect of `begin` on a store whose count field is between 1 and 5: the mode flag is
untouched, the count is the stored one and every live slot is loaded from its record. -/
theorem begin_operational (R : Nat) (s : DM)
    (h1 : 1 ≤ statusCount (readROM s DEVICE_COUNT_ADDR))
    (h2 : statusCount (readROM s DEVICE_COUNT_ADDR) ≤ 5) :
    (begin R s).config = s.config
      ∧ (begin R s).deviceCount = statusCount (readROM s DEVICE_COUNT_ADDR)
      ∧ ∀ j, j < statusCount (readROM s DEVICE_COUNT_ADDR) →
          (begin R s).devices j = s.rom.device (j * R + 1) := by
  have hne : statusCount (readROM s DEVICE_COUNT_ADDR) ≠ 0 := by omega
  have hnr : ¬ (statusCount (readROM s DEVICE_COUNT_ADDR) > 5
      ∧ statusCount (readROM s DEVICE_COUNT_ADDR) < 16) := by omega
  unfold begin
  simp only [hnr, hne, if_false]
  refine ⟨?_, ?_, ?_⟩
  · rw [loadLoop_config]
    split <;> rfl
  · rw [loadLoop_deviceCount]
    split <;> rfl
  · intro j hj
    rw [loadLoop_devices]
    split
    · rw [if_pos ⟨Nat.zero_le _, by simpa using hj⟩]
    · rw [if_pos ⟨Nat.zero_le _, by simpa using hj⟩]

/-- C4: after any sequence of `addDevice`/`delDevice` calls from an empty registry that ends
with `n ≥ 1` devices, `begin` on the store left behind ends in Operational mode (`_config`
clear) with `n` devices whose (pin, name) values are, in order, those of the registry before
the reboot; slot `i` is the record read at offset `i * sizeof(Device) + 1`. -/
theorem registry_survives_reboot (L R : Nat) (hR : 0 < R) (s0 : DM) (ops : List Op)
    (mem : Nat → Device) (h0 : s0.deviceCount = 0)
    (hn : 1 ≤ (runOps L R s0 ops).deviceCount) :
    (begin R (powerOn (runOps L R s0 ops).rom mem)).config = false
      ∧ (begin R (powerOn (runOps L R s0 ops).rom mem)).deviceCount
          = (runOps L R s0 ops).deviceCount
      ∧ (live (begin R (powerOn (runOps L R s0 ops).rom mem))).map (fun d => (d.pin, d.name))
          = (live (runOps L R s0 ops)).map (fun d => (d.pin, d.name))
      ∧ ∀ i, i < (runOps L R s0 ops).deviceCount →
          (begin R (powerOn (runOps L R s0 ops).rom mem)).devices i
            = (runOps L R s0 ops).rom.device (i * R + 1) := by
  have hinit : Mirrored R s0 := by
    refine ⟨by rw [h0]; exact Nat.zero_le _, fun h => ?_, fun i hi => ?_⟩
    · rw [h0] at h
      exact absurd h (Nat.not_succ_le_zero 0)
    · rw [h0] at hi
      exact absurd hi (Nat.not_lt_zero i)
  obtain ⟨hle, hst, hmir⟩ := Mirrored_runOps L R hR ops s0 hinit
  have h5 : (runOps L R s0 ops).deviceCount ≤ 5 := hle
  have hrd : readROM (powerOn (runOps L R s0 ops).rom mem) DEVICE_COUNT_ADDR
      = (runOps L R s0 ops).deviceCount := hst hn
  have hsc : statusCount (readROM (powerOn (runOps L R s0 ops).rom mem) DEVICE_COUNT_ADDR)
      = (runOps L R s0 ops).deviceCount := by
    rw [hrd]
    exact statusCount_of_le h5
  obtain ⟨hcfg, hcnt, hdev⟩ := begin_operational R (powerOn (runOps L R s0 ops).rom mem)
    (by rw [hsc]; exact hn) (by rw [hsc]; exact h5)
  rw [hsc] at hcnt hdev
  refine ⟨hcfg, hcnt, ?_, hdev⟩
  have hlive : live (begin R (powerOn (runOps L R s0 ops).rom mem)) = live (runOps L R s0 ops) := by
    apply List.ext_getElem (by rw [length_live, length_live, hcnt])
    intro j h1 h2
    rw [length_live] at h2
    rw [getElem_live, getElem_live, hdev j h2]
    exact hmir j h2
  rw [hlive]

/-- C4 on the run `add lamp, add fan, add lamp, delete lamp` with 10-byte records. -/
theorem registry_survives_reboot_witness :
    (begin 10 (powerOn (runOps 8 10 (powerOn blankRom (fun _ => default)) lampFanOps).rom
        (fun _ => default))).config = false
      ∧ (begin 10 (powerOn (runOps 8 10 (powerOn blankRom (fun _ => default)) lampFanOps).rom
          (fun _ => default))).deviceCount
          = (runOps 8 10 (powerOn blankRom (fun _ => default)) lampFanOps).deviceCount
      ∧ (live (begin 10 (powerOn (runOps 8 10 (powerOn blankRom (fun _ => default))
          lampFanOps).rom (fun _ => default)))).map (fun d => (d.pin, d.name))
          = (live (runOps 8 10 (powerOn blankRom (fun _ => default)) lampFanOps)).map
              (fun d => (d.pin, d.name))
      ∧ ∀ i, i < (runOps 8 10 (powerOn blankRom (fun _ => default)) lampFanOps).deviceCount →
          (begin 10 (powerOn (runOps 8 10 (powerOn blankRom (fun _ => default)) lampFanOps).rom
            (fun _ => default))).devices i
            = (runOps 8 10 (powerOn blankRom (fun _ => default)) lampFanOps).rom.device
                (i * 10 + 1) :=
  registry_survives_reboot 8 10 (by decide) (powerOn blankRom (fun _ => default)) lampFanOps
    (fun _ => default) rfl (by decide)

/-! ## C5 -/

/-- C5: when the count field of the stored status byte is 0 or lies in 6..15, `begin` ends
with an empty registry, a stored count field of 0 and `_config` set, whatever the device
records hold. -/
theorem begin_invalid_count_enters_config (R : Nat) (s : DM)
    (h : statusCount (readROM s DEVICE_COUNT_ADDR) = 0
      ∨ (6 ≤ statusCount (readROM s DEVICE_COUNT_ADDR)
          ∧ statusCount (readROM s DEVICE_COUNT_ADDR) ≤ 15)) :
    (begin R s).deviceCount = 0
      ∧ statusCount (readROM (begin R s) DEVICE_COUNT_ADDR) = 0
      ∧ (begin R s).config = true := by
  rcases h with h | h
  · have hnr : ¬ (statusCount (readROM s DEVICE_COUNT_ADDR) > 5
        ∧ statusCount (readROM s DEVICE_COUNT_ADDR) < 16) := by omega
    unfold begin
    simp only [hnr, if_false]
    simp only [h, if_true]
    exact ⟨trivial, h, trivial⟩
  · have hr : statusCount (readROM s DEVICE_COUNT_ADDR) > 5
        ∧ statusCount (readROM s DEVICE_COUNT_ADDR) < 16 := by omega
    unfold begin
    simp only [hr, and_self, if_true]
    refine ⟨trivial, ?_, trivial⟩
    show statusCount (readROM (writeROM _ _ _) _) = 0
    rw [readROM_writeROM]
    rfl

/-- C5 on a store whose status byte is `0x3b` (count field 11, both flags set). -/
theorem begin_invalid_count_enters_config_witness :
    (begin 10 (staleStore 0x3b)).deviceCount = 0
      ∧ statusCount (readROM (begin 10 (staleStore 0x3b)) DEVICE_COUNT_ADDR) = 0
      ∧ (begin 10 (staleStore 0x3b)).config = true :=
  begin_invalid_count_enters_config 10 (staleStore 0x3b) (by decide)

/-! ## C6 -/

set_option maxRecDepth 100000 in
theorem flagsByte_decode :
    ∀ st, st < 256 → ∀ a b : Bool,
      statusCount (flagsByte st a b % 256) = statusCount st
        ∧ statusAlexa (flagsByte st a b % 256) = a
        ∧ statusMqtt (flagsByte st a b % 256) = b := by
  decide

theorem setControlsHandler_status (R : Nat) (s : DM) (a : Bool) (m : Option (String × Nat)) :
    readROM (setControlsHandler R s a m) DEVICE_COUNT_ADDR
      = flagsByte (readROM s DEVICE_COUNT_ADDR) a m.isSome % 256 := by
  rcases m with _ | ⟨host, port⟩ <;> cases a <;>
    exact readROM_writeROM _ _ _

/-- C6: for any stored status byte and any pair of flags, after `setControlsHandler` the
status byte decodes, the way `begin` decodes it, to the count field it had before the write
and to exactly the two flags submitted. -/
theorem setControls_then_decode (R : Nat) (s : DM) (a : Bool) (m : Option (String × Nat)) :
    statusCount (readROM (setControlsHandler R s a m) DEVICE_COUNT_ADDR)
        = statusCount (readROM s DEVICE_COUNT_ADDR)
      ∧ statusAlexa (readROM (setControlsHandler R s a m) DEVICE_COUNT_ADDR) = a
      ∧ statusMqtt (readROM (setControlsHandler R s a m) DEVICE_COUNT_ADDR) = m.isSome := by
  rw [setControlsHandler_status]
  exact flagsByte_decode _ (Nat.mod_lt _ (by decide)) a m.isSome

/-! ## C8 -/

/-- C8 as stated fails at the boundary: in an Operational state with the button pressed and
`millis() - _buttonTimer` equal to a threshold of 3000, the tick leaves `_config` clear. -/
theorem handle_at_threshold_stays_operational :
    idle.config = false ∧ elapsed idle 3000 = 3000 ∧ 3000 ≤ elapsed idle 3000
      ∧ (handle 3000 8 10 idle none true 3000).config = false := by
  decide

/-- C8 amended: in an Operational state, a tick with the button pressed ends in
configuration mode exactly when `millis() - _buttonTimer` is strictly above
`BTN_PRESS_TIME`. -/
theorem handle_pressed_enters_config_iff (btn L R : Nat) (s : DM) (req : Option Request)
    (now : Nat) (hop : s.config = false) :
    (handle btn L R s req true now).config = true ↔ btn < elapsed s now := by
  unfold handle
  simp only [hop, Bool.false_eq_true, if_false, if_true, not_false_eq_true, and_true]
  by_cases h : elapsed s now > btn
  · rw [if_pos h]
    exact ⟨fun _ => h, fun _ => rfl⟩
  · rw [if_neg h]
    exact ⟨fun e => absurd (hop.symm.trans e) (by decide), fun e => absurd e h⟩

/-- C8 amended, at an elapsed time of 3001 against a threshold of 3000. -/
theorem handle_pressed_enters_config_iff_witness :
    (handle 3000 8 10 idle none true 3001).config = true ↔ 3000 < elapsed idle 3001 :=
  handle_pressed_enters_config_iff 3000 8 10 idle none 3001 rfl

/-! ## C9 -/

theorem addDevice_config (L R : Nat) (s : DM) (pin : Nat) (name : String) :
    (addDevice L R s pin name).2.config = s.config := by
  unfold addDevice
  split <;> rfl

theorem delDevice_config (R : Nat) (s : DM) (name : Option String) :
    (delDevice R s name).config = s.config := by
  cases name with
  | none => rfl
  | some nm =>
    unfold delDevice
    simp only
    split
    · exact shiftLoop_config _ _ _ _
    · rfl

theorem setControlsHandler_config (R : Nat) (s : DM) (a : Bool) (m : Option (String × Nat)) :
    (setControlsHandler R s a m).config = s.config := by
  rcases m with _ | ⟨host, port⟩ <;> cases a <;> rfl

theorem handleClient_config (L R : Nat) (s : DM) (req : Option Request) :
    (handleClient L R s req).config = s.config := by
  rcases req with _ | req
  · rfl
  · cases req with
    | page => rfl
    | add pin name => exact addDevice_config L R s _ name
    | del name => exact delDevice_config R s name
    | controls a m => exact setControlsHandler_config R s a m

theorem handle_config (btn L R : Nat) (s : DM) (req : Option Request) (pressed : Bool)
    (now : Nat) (h : s.config = true) : (handle btn L R s req pressed now).config = true := by
  unfold handle
  simp only [h, if_true]
  have hc : (handleClient L R s req).config = true := (handleClient_config L R s req).trans h
  cases pressed
  · exact hc
  · simp only [if_true]
    split
    · rfl
    · exact hc

theorem begin_config (R : Nat) (s : DM) (h : s.config = true) : (begin R s).config = true := by
  by_cases hr : statusCount (readROM s DEVICE_COUNT_ADDR) > 5
      ∧ statusCount (readROM s DEVICE_COUNT_ADDR) < 16
  · unfold begin
    simp only [hr, and_self, if_true]
  · by_cases hz : statusCount (readROM s DEVICE_COUNT_ADDR) = 0
    · unfold begin
      simp only [hr, if_false]
      simp only [hz, if_true]
    · unfold begin
      simp only [hr, hz, if_false]
      rw [loadLoop_config]
      split <;> exact h

theorem step_config (btn L R : Nat) (s : DM) (st : Step) (h : s.config = true) :
    (step btn L R s st).config = true := by
  cases st with
  | tick req pressed now => exact handle_config btn L R s req pressed now h
  | addDevice pin name => exact (addDevice_config L R s pin name).trans h
  | delDevice name => exact (delDevice_config R s name).trans h
  | setControls a m => exact (setControlsHandler_config R s a m).trans h
  | saveMqttConfs => exact h
  | getMqttConfs => exact h
  | begin => exact begin_config R s h

/-- C9: once `_config` is set it stays set after any sequence of steps, each a tick of
`handle` (any pending request, button pressed or not, any time value) or a call of
`addDevice`, `delDevice` (by name or delete-all), `setControlsHandler`, `saveMqttConfs`,
`getMqttConfs` or `begin`. -/
theorem config_mode_is_irreversible (btn L R : Nat) (s : DM) (steps : List Step)
    (h : s.config = true) : (steps.foldl (step btn L R) s).config = true := by
  induction steps generalizing s with
  | nil => exact h
  | cons st steps ih => exact ih (step btn L R s st) (step_config btn L R s st h)

/-- C9 on a run that adds a device, ticks with the button released, changes the flags,
deletes everything and ticks with the button held. -/
theorem config_mode_is_irreversible_witness :
    (([.addDevice 4 "lamp", .tick none false 10, .setControls true none, .delDevice none,
        .tick (some (.add 5 "fan")) true 99999] : List Step).foldl
      (step 3000 8 10) lampFan).config = true :=
  config_mode_is_irreversible 3000 8 10 lampFan _ rfl

/-! ## C7 -/

/-- C7 fails on the code: with the assistant flag stored, a successful `addDevice` leaves a
status byte equal to the bare count, so the flag decodes as off; a `delDevice` of a present
name does the same to both flags. -/
theorem add_and_delete_clear_stored_flags :
    (statusAlexa (readROM assistantOn DEVICE_COUNT_ADDR) = true
        ∧ (addDevice 8 10 assistantOn 4 "lamp").1 = true
        ∧ readROM (addDevice 8 10 assistantOn 4 "lamp").2 DEVICE_COUNT_ADDR = 1
        ∧ statusAlexa (readROM (addDevice 8 10 assistantOn 4 "lamp").2 DEVICE_COUNT_ADDR) = false)
      ∧ (statusAlexa (readROM lampWithFlags DEVICE_COUNT_ADDR) = true
        ∧ statusMqtt (readROM lampWithFlags DEVICE_COUNT_ADDR) = true
        ∧ getDeviceIndexName lampWithFlags "lamp" = 0
        ∧ readROM (delDevice 10 lampWithFlags (some "lamp")) DEVICE_COUNT_ADDR = 0
        ∧ statusAlexa (readROM (delDevice 10 lampWithFlags (some "lamp")) DEVICE_COUNT_ADDR)
            = false
        ∧ statusMqtt (readROM (delDevice 10 lampWithFlags (some "lamp")) DEVICE_COUNT_ADDR)
            = false) := by
  decide

/-! ## C10 -/

/-- C10 fails on the code: deleting a present device from a full registry evaluates
`_devices[MAX_DEVICES]`, in the last pass of the shifting loop. -/
theorem delDevice_full_reads_past_end :
    fullRegistry.deviceCount = MAX_DEVICES
      ∧ getDeviceIndexName fullRegistry "c" = 2
      ∧ delDeviceAccesses fullRegistry (some "c") = [0, 1, 2, 3, 2, 4, 3, 5, 4]
      ∧ MAX_DEVICES ∈ delDeviceAccesses fullRegistry (some "c") := by
  decide

end DeviceManager
